import Mathlib

/-!
Shallow embedding of `timetable_scheduler_improved.py` (class `ImprovedScheduler`)
and proofs of the spec's testable properties about it.

Conventions of the embedding:
* clock times are minutes since midnight (`time(9,0)` becomes `540`);
* `duration_hours` is a rational number (Python floats 1.0 / 1.5 / 2.0 are
  exactly representable, so float equality coincides with rational equality);
* Python `int` fields become `Int`; Python lists become `List`;
* each mutable `defaultdict` of the scheduler becomes a total function
  returning `[]` by default, and in-place mutation becomes explicit state
  passing through `SchedulerState`;
* Python's `TimeSlot.__eq__` compares only `(day, start_time, end_time)`
  (it ignores `duration_hours`), so slot membership tests use `sameSlot`
  rather than structural equality;
* the `conflict_reasons` Counter is a function `String → Nat`;
* `_check_constraints` returns its `(bool, reason)` pair together with the
  updated counter, since incrementing the counter is its only side effect.
-/

namespace Timetable

inductive SessionType where
  | lecture
  | tutorial
  | practical
deriving DecidableEq, Repr

/-- `SessionType.value`, mirroring the Python enum's string values. -/
def SessionType.value : SessionType → String
  | .lecture => "Lecture"
  | .tutorial => "Tutorial"
  | .practical => "Practical"

structure TimeSlot where
  day : String
  start_time : Nat
  end_time : Nat
  duration_hours : ℚ
deriving DecidableEq, Repr

/-- Python `TimeSlot.__eq__`: equality on `(day, start_time, end_time)` only. -/
def sameSlot (a b : TimeSlot) : Bool :=
  a.day == b.day && a.start_time == b.start_time && a.end_time == b.end_time

/-- Python list membership `slot in l`, which uses `TimeSlot.__eq__`. -/
def slotIn (s : TimeSlot) (l : List TimeSlot) : Bool :=
  l.any (fun t => sameSlot s t)

/-- `TimeSlot.overlaps`: same day and strictly intersecting half-open intervals. -/
def TimeSlot.overlaps (a b : TimeSlot) : Bool :=
  if a.day ≠ b.day then false
  else decide (a.start_time < b.end_time) && decide (b.start_time < a.end_time)

/-- The `Course` dataclass.  The Python field `section` is a Lean keyword, so it
is named `course_section` here; everything else keeps its source name. -/
structure Course where
  course_id : String
  course_code : String
  course_title : String
  semester : Int
  semester_half : String
  branch : String
  course_section : Option String
  lectures : Int
  tutorials : Int
  practicals : Int
  faculty_name : String
  is_elective : Bool
  basket : Option String := none
  num_students : Int := 60
deriving DecidableEq, Repr

/-- `Course.get_student_key`.  Python's `if self.section:` is falsy for both
`None` and the empty string, and `//` is floor division. -/
def Course.get_student_key (c : Course) : String :=
  let sec := c.course_section.getD ""
  if sec == "" then c.branch ++ "_Year" ++ toString ((c.semester + 1).fdiv 2)
  else c.branch ++ "_" ++ sec ++ "_Sem" ++ toString c.semester

structure Room where
  room_id : String
  capacity : Int
deriving DecidableEq, Repr

structure ScheduledSession where
  course : Course
  session_type : SessionType
  time_slot : TimeSlot
  room : Room
  faculty_name : String
  session_number : Nat := 1
  basket : Option String := none
deriving DecidableEq, Repr

/-- The rational 3/2, given in normal form so that duration comparisons reduce
inside the kernel. -/
def q15 : ℚ := ⟨3, 2, by decide, by decide⟩

/-- The rational 1 in normal form. -/
def q10 : ℚ := ⟨1, 1, by decide, by decide⟩

/-- The rational 2 in normal form. -/
def q20 : ℚ := ⟨2, 1, by decide, by decide⟩

/-- One day's 14 slots from `_generate_time_slots`, in source order:
four 1.5h lecture slots, six 1h tutorial slots, four 2h practical slots. -/
def daySlots (day : String) : List TimeSlot :=
  [⟨day, 540, 630, q15⟩, ⟨day, 660, 750, q15⟩, ⟨day, 840, 930, q15⟩, ⟨day, 960, 1050, q15⟩,
   ⟨day, 540, 600, q10⟩, ⟨day, 630, 690, q10⟩, ⟨day, 690, 750, q10⟩,
   ⟨day, 840, 900, q10⟩, ⟨day, 930, 990, q10⟩, ⟨day, 990, 1050, q10⟩,
   ⟨day, 540, 660, q20⟩, ⟨day, 660, 780, q20⟩, ⟨day, 840, 960, q20⟩, ⟨day, 960, 1080, q20⟩]

/-- `_generate_time_slots`: the catalog for the five weekdays. -/
def generateTimeSlots : List TimeSlot :=
  (["Monday", "Tuesday", "Wednesday", "Thursday", "Friday"].map daySlots).flatten

/-- Character-list prefix test (needle, haystack). -/
def listPre : List Char → List Char → Bool
  | [], _ => true
  | _ :: _, [] => false
  | a :: as, b :: bs => a == b && listPre as bs

/-- Character-list substring test, mirroring Python's `needle in hay`. -/
def listSub (n : List Char) : List Char → Bool
  | [] => n.isEmpty
  | b :: bs => listPre n (b :: bs) || listSub n bs

/-- Python `needle in hay` on strings. -/
def hasSubstr (hay needle : String) : Bool := listSub needle.data hay.data

/-- Python `s.startswith(p)` (corresponds to `String.startsWith`, spelt out on
the character lists so that it evaluates inside the kernel). -/
def strStarts (s p : String) : Bool := listPre p.data s.data

/-- ASCII uppercase of one character (the room-id markers are ASCII, so this
matches Python's `str.upper` on the inputs that matter). -/
def charUp (c : Char) : Char :=
  if c.toNat < 97 then c
  else if 122 < c.toNat then c
  else Char.ofNat (c.toNat - 32)

/-- Python `s.upper()` on ASCII strings. -/
def strUpper (s : String) : String := ⟨s.data.map charUp⟩

/-- Lab classification used when building `self.labs`:
`r.room_id.startswith('L') or 'LAB' in r.room_id.upper()`. -/
def labLike (r : Room) : Bool :=
  strStarts r.room_id ("L") || hasSubstr (strUpper r.room_id) ("LAB")

/-- Stable insertion for descending-capacity order (Python `sorted` with
`key=lambda r: -r.capacity` is stable: capacity ties keep input order). -/
def insRoom (r : Room) : List Room → List Room
  | [] => [r]
  | x :: xs => if r.capacity < x.capacity then x :: insRoom r xs else r :: x :: xs

/-- Stable sort by descending capacity. -/
def sortRoomsDesc : List Room → List Room
  | [] => []
  | r :: rs => insRoom r (sortRoomsDesc rs)

/-- The immutable part of the scheduler set up in `__init__`: room classes and
the duration-indexed slot catalog (`slots_by_duration[d]` collects, in
generation order, the slots of duration `d`). -/
structure SchedCfg where
  big_rooms : List Room
  regular_rooms : List Room
  labs : List Room
  slots_by_duration : ℚ → List TimeSlot

/-- Room classification from `__init__` (lines 105-107) plus the slot catalog. -/
def mkCfg (rooms : List Room) : SchedCfg :=
  { big_rooms := sortRoomsDesc (rooms.filter (fun r => decide (100 ≤ r.capacity))),
    regular_rooms := sortRoomsDesc (rooms.filter
      (fun r => decide (r.capacity < 100) && !(strStarts r.room_id ("L")))),
    labs := rooms.filter labLike,
    slots_by_duration := fun d => generateTimeSlots.filter (fun s => decide (s.duration_hours = d)) }

/-- `_get_suitable_rooms`: labs for practicals, otherwise big then regular,
filtered by `room.capacity >= course.num_students`. -/
def _get_suitable_rooms (cfg : SchedCfg) (c : Course) (ty : SessionType) : List Room :=
  if ty == .practical then
    cfg.labs.filter (fun r => decide (c.num_students ≤ r.capacity))
  else
    (cfg.big_rooms ++ cfg.regular_rooms).filter (fun r => decide (c.num_students ≤ r.capacity))

/-- The mutable scheduler state: `self.schedule`, the four occupancy
dictionaries, `self.conflicts` and `self.conflict_reasons`. -/
structure SchedulerState where
  schedule : List ScheduledSession
  faculty_schedule : String → String → List TimeSlot
  room_schedule : String → String → List TimeSlot
  student_schedule : String → String → List TimeSlot
  course_daily_schedule : String → String → List SessionType
  conflicts : List String
  conflict_reasons : String → Nat

/-- The empty state created in `__init__`. -/
def initState : SchedulerState :=
  { schedule := [], faculty_schedule := fun _ _ => [], room_schedule := fun _ _ => [],
    student_schedule := fun _ _ => [], course_daily_schedule := fun _ _ => [],
    conflicts := [], conflict_reasons := fun _ => 0 }

/-- `self.conflict_reasons[k] += 1`. -/
def bump (f : String → Nat) (k : String) : String → Nat :=
  fun s => if s == k then f s + 1 else f s

/-- The canonical duration table `required` (lecture 1.5h, tutorial 1h,
practical 2h). -/
def requiredDuration : SessionType → ℚ
  | .lecture => q15
  | .tutorial => q10
  | .practical => q20

/-- `_check_constraints`.  Returns `(accepted, reason, updated conflict_reasons)`;
incrementing `self.conflict_reasons` is the method's only mutation.  The room
check iterates the two literal halves `"Sem-I"`, `"Sem-II"`, modelled as a
disjunction (both branches reject with the same reason). -/
def _check_constraints (st : SchedulerState) (c : Course) (ty : SessionType)
    (slot : TimeSlot) (rm : Room) : Bool × String × (String → Nat) :=
  let half := c.semester_half
  let daily := st.course_daily_schedule c.course_id slot.day
  let durStep : Bool × String × (String → Nat) :=
    if slot.duration_hours = requiredDuration ty then (true, "OK", st.conflict_reasons)
    else (false, "Wrong duration", bump st.conflict_reasons ("Wrong duration"))
  if slotIn slot (st.faculty_schedule c.faculty_name half) then
    (false, "Faculty busy", bump st.conflict_reasons ("Faculty busy"))
  else if slotIn slot (st.room_schedule rm.room_id ("Sem-I")) ||
          slotIn slot (st.room_schedule rm.room_id ("Sem-II")) then
    (false, "Room occupied", bump st.conflict_reasons ("Room occupied"))
  else if slotIn slot (st.student_schedule c.get_student_key half) then
    (false, "Students busy", bump st.conflict_reasons ("Students busy"))
  else if 2 ≤ daily.length then
    (false, "Course already has 2 sessions today",
     bump st.conflict_reasons ("Max 2 sessions/day exceeded"))
  else
    match daily with
    | [e] =>
      if ty == .practical && e == .practical then
        (false, "Already has a practical today", bump st.conflict_reasons ("Two practicals same day"))
      else if ty == .lecture && e == .lecture then
        (false, "Already has a lecture today", bump st.conflict_reasons ("Two lectures same day"))
      else if ty == .tutorial && e == .tutorial then
        (false, "Already has a tutorial today", bump st.conflict_reasons ("Two tutorials same day"))
      else if (ty == .lecture && e == .tutorial) || (ty == .tutorial && e == .lecture) then
        (false, "Already has a theory session today",
         bump st.conflict_reasons ("Lecture+Tutorial same day"))
      else durStep
    | _ => durStep

/-- Append `x` to the list stored at `(k1, k2)` in a two-level dictionary. -/
def upd2 {α : Type} (f : String → String → List α) (k1 k2 : String) (x : α) :
    String → String → List α :=
  fun a b => if a == k1 && b == k2 then f a b ++ [x] else f a b

/-- The `ScheduledSession` literal built inside `_schedule_session`. -/
def mkSession (c : Course) (ty : SessionType) (num : Nat) (slot : TimeSlot)
    (rm : Room) : ScheduledSession :=
  { course := c, session_type := ty, time_slot := slot, room := rm,
    faculty_name := c.faculty_name, session_number := num, basket := c.basket }

/-- The commit block of `_schedule_session` (lines 284-302): append the new
`ScheduledSession` and record the slot in all four occupancy dictionaries. -/
def commitSession (st : SchedulerState) (c : Course) (ty : SessionType) (num : Nat)
    (slot : TimeSlot) (rm : Room) : SchedulerState :=
  { st with
    schedule := st.schedule ++ [mkSession c ty num slot rm],
    faculty_schedule := upd2 st.faculty_schedule c.faculty_name c.semester_half slot,
    room_schedule := upd2 st.room_schedule rm.room_id c.semester_half slot,
    student_schedule := upd2 st.student_schedule c.get_student_key c.semester_half slot,
    course_daily_schedule := upd2 st.course_daily_schedule c.course_id slot.day ty }

/-- Inner loop of `_schedule_session` over suitable rooms for a fixed slot. -/
def tryRooms (c : Course) (ty : SessionType) (num : Nat) (slot : TimeSlot) :
    List Room → SchedulerState → Bool × SchedulerState
  | [], st => (false, st)
  | r :: rs, st =>
    let res := _check_constraints st c ty slot r
    if res.1 then
      (true, commitSession { st with conflict_reasons := res.2.2 } c ty num slot r)
    else
      tryRooms c ty num slot rs { st with conflict_reasons := res.2.2 }

/-- Outer loop of `_schedule_session` over the slots of the required duration. -/
def trySlots (c : Course) (ty : SessionType) (num : Nat) (rooms : List Room) :
    List TimeSlot → SchedulerState → Bool × SchedulerState
  | [], st => (false, st)
  | slot :: rest, st =>
    match tryRooms c ty num slot rooms st with
    | (true, st1) => (true, st1)
    | (false, st1) => trySlots c ty num rooms rest st1

/-- `_schedule_session`: compute suitable rooms; if none, count
"No suitable room" and fail; otherwise first-fit over slots × rooms. -/
def _schedule_session (cfg : SchedCfg) (c : Course) (ty : SessionType) (num : Nat)
    (st : SchedulerState) : Bool × SchedulerState :=
  let suitable := _get_suitable_rooms cfg c ty
  if suitable.isEmpty then
    (false, { st with conflict_reasons := bump st.conflict_reasons ("No suitable room") })
  else
    trySlots c ty num suitable (cfg.slots_by_duration (requiredDuration ty)) st

/-- The conflict string appended by `schedule_course` for an unplaced session. -/
def conflictMsg (c : Course) (ty : SessionType) (num : Nat) : String :=
  c.course_code ++ " (" ++ c.branch ++ " " ++ c.course_section.getD "" ++ " " ++
    c.semester_half ++ ") - " ++ ty.value ++ " #" ++ toString num ++ " - Faculty: " ++
    c.faculty_name

/-- Python `range(1, count + 1)` for an `int` count (empty when `count ≤ 0`). -/
def sessionNums (count : Int) : List Nat :=
  (List.range count.toNat).map (fun i => i + 1)

/-- One iteration of `schedule_course`'s inner loop: attempt a session and on
failure append the conflict string.  Threads the running scheduled count. -/
def attemptSession (cfg : SchedCfg) (c : Course) (ty : SessionType) (num : Nat)
    (p : Nat × SchedulerState) : Nat × SchedulerState :=
  match _schedule_session cfg c ty num p.2 with
  | (true, st1) => (p.1 + 1, st1)
  | (false, st1) => (p.1, { st1 with conflicts := st1.conflicts ++ [conflictMsg c ty num] })

/-- Attempt the numbered sessions of one type for one course. -/
def scheduleType (cfg : SchedCfg) (c : Course) (ty : SessionType) (nums : List Nat)
    (p : Nat × SchedulerState) : Nat × SchedulerState :=
  nums.foldl (fun q n => attemptSession cfg c ty n q) p

/-- `schedule_course`: lectures, then tutorials, then practicals. -/
def schedule_course (cfg : SchedCfg) (c : Course) (st : SchedulerState) :
    Nat × SchedulerState :=
  scheduleType cfg c .practical (sessionNums c.practicals)
    (scheduleType cfg c .tutorial (sessionNums c.tutorials)
      (scheduleType cfg c .lecture (sessionNums c.lectures) (0, st)))

/-- Strict lexicographic comparison of the sort key
`(semester_half, semester, -practicals, -num_students)`. -/
def courseKeyLT (a b : Course) : Bool :=
  decide (a.semester_half.data < b.semester_half.data) ||
  (a.semester_half == b.semester_half &&
    (decide (a.semester < b.semester) ||
      (a.semester == b.semester &&
        (decide (b.practicals < a.practicals) ||
          (a.practicals == b.practicals && decide (b.num_students < a.num_students))))))

/-- Stable insertion for the course sort (an earlier course goes before
later courses with an equal key, as with Python's stable `sorted`). -/
def insCourse (c : Course) : List Course → List Course
  | [] => [c]
  | x :: xs => if courseKeyLT x c then x :: insCourse c xs else c :: x :: xs

/-- The `sorted_courses` ordering of `generate_timetable`. -/
def sortCourses : List Course → List Course
  | [] => []
  | c :: cs => insCourse c (sortCourses cs)

/-- The elective grouping key `(course.semester, course.branch, course.semester_half)`. -/
def electiveKey (c : Course) : Int × String × String :=
  (c.semester, c.branch, c.semester_half)

/-- `elective_groups[key].append(course)` on an insertion-ordered association
list (Python dicts preserve key insertion order). -/
def addGroup : List ((Int × String × String) × List Course) → (Int × String × String) →
    Course → List ((Int × String × String) × List Course)
  | [], k, c => [(k, [c])]
  | (k1, l) :: rest, k, c =>
    if k1 = k then (k1, l ++ [c]) :: rest else (k1, l) :: addGroup rest k c

/-- Group the elective courses of the input (in input order) by `electiveKey`. -/
def electiveGroupsAux (gs : List ((Int × String × String) × List Course)) :
    List Course → List ((Int × String × String) × List Course)
  | [] => gs
  | c :: cs =>
    electiveGroupsAux (if c.is_elective then addGroup gs (electiveKey c) c else gs) cs

/-- The `elective_groups` dictionary of `_detect_baskets`. -/
def electiveGroups (cs : List Course) : List ((Int × String × String) × List Course) :=
  electiveGroupsAux [] cs

/-- The basket-id assignment loop of `_detect_baskets`: groups with more than
one course get `"B1"`, `"B2"`, ... in group-insertion order. -/
def assignIds : List ((Int × String × String) × List Course) → Nat →
    List ((Int × String × String) × String)
  | [], _ => []
  | (k, l) :: rest, n =>
    if 1 < l.length then (k, "B" ++ toString n) :: assignIds rest (n + 1)
    else assignIds rest n

/-- The basket id (if any) assigned to each elective key. -/
def basketAssignment (cs : List Course) : List ((Int × String × String) × String) :=
  assignIds (electiveGroups cs) 1

/-- First-match association-list lookup. -/
def lookupId (m : List ((Int × String × String) × String)) (k : Int × String × String) :
    Option String :=
  match m with
  | [] => none
  | (k1, v) :: rest => if k1 = k then some v else lookupId rest k

/-- The update one course object receives from `_detect_baskets`: elective
courses whose group got a basket id have their `basket` field set; all other
courses are left untouched. -/
def basketFix (m : List ((Int × String × String) × String)) (c : Course) : Course :=
  if c.is_elective then
    match lookupId m (electiveKey c) with
    | some b => { c with basket := some b }
    | none => c
  else c

/-- The effect of `_detect_baskets` on the list of course objects. -/
def applyBaskets (cs : List Course) : List Course :=
  cs.map (basketFix (basketAssignment cs))

/-- The course loop of `generate_timetable`. -/
def runFold (cfg : SchedCfg) (cs : List Course) (st : SchedulerState) : SchedulerState :=
  cs.foldl (fun st c => (schedule_course cfg c st).2) st

/-- One whole scheduling run: `__init__` (room classification, basket
detection) followed by `generate_timetable` (sort, then `schedule_course`
for every course). -/
def runScheduler (courses : List Course) (rooms : List Room) : SchedulerState :=
  runFold (mkCfg rooms) (sortCourses (applyBaskets courses)) initState

/-! ### Basic lemmas: slot equality, membership, dictionary updates -/

theorem sameSlot_iff {a b : TimeSlot} :
    sameSlot a b = true ↔
      a.day = b.day ∧ a.start_time = b.start_time ∧ a.end_time = b.end_time := by
  simp [sameSlot, and_assoc]

theorem sameSlot_self (a : TimeSlot) : sameSlot a a = true := by
  simp [sameSlot]

theorem slotIn_congr {a b : TimeSlot} (h : sameSlot a b = true) (l : List TimeSlot) :
    slotIn a l = slotIn b l := by
  obtain ⟨h1, h2, h3⟩ := sameSlot_iff.1 h
  simp only [slotIn, sameSlot, h1, h2, h3]

theorem slotIn_append (a x : TimeSlot) (l : List TimeSlot) :
    slotIn a (l ++ [x]) = (slotIn a l || sameSlot a x) := by
  simp [slotIn]

theorem slotIn_mono {a : TimeSlot} {l : List TimeSlot} (h : slotIn a l = true)
    (x : TimeSlot) : slotIn a (l ++ [x]) = true := by
  simp [slotIn_append, h]

theorem slotIn_self_append (a : TimeSlot) (l : List TimeSlot) :
    slotIn a (l ++ [a]) = true := by
  simp [slotIn_append, sameSlot_self]

theorem upd2_apply {α : Type} (f : String → String → List α) (k1 k2 : String) (x : α)
    (a b : String) :
    upd2 f k1 k2 x a b = if a == k1 && b == k2 then f a b ++ [x] else f a b := rfl

theorem upd2_self {α : Type} (f : String → String → List α) (k1 k2 : String) (x : α) :
    upd2 f k1 k2 x k1 k2 = f k1 k2 ++ [x] := by
  simp [upd2]

theorem slotIn_upd2 {f : String → String → List TimeSlot} {k1 k2 : String}
    {s : TimeSlot} {a b : String} (h : slotIn s (f a b) = true) (x : TimeSlot) :
    slotIn s (upd2 f k1 k2 x a b) = true := by
  rw [upd2_apply]
  split
  · exact slotIn_mono h x
  · exact h

/-! ### The acceptance condition of `_check_constraints` -/

/-- The same-day session-type collision table of checks 5a-5d: rejected iff the
two types are equal, or one is a lecture and the other a tutorial. -/
def collide (newT oldT : SessionType) : Bool :=
  (newT == .practical && oldT == .practical) || (newT == .lecture && oldT == .lecture) ||
  (newT == .tutorial && oldT == .tutorial) ||
  (newT == .lecture && oldT == .tutorial) || (newT == .tutorial && oldT == .lecture)

/-- Everything that must hold for `_check_constraints` to accept. -/
def CheckOk (st : SchedulerState) (c : Course) (ty : SessionType) (slot : TimeSlot)
    (rm : Room) : Prop :=
  slotIn slot (st.faculty_schedule c.faculty_name c.semester_half) = false ∧
  slotIn slot (st.room_schedule rm.room_id ("Sem-I")) = false ∧
  slotIn slot (st.room_schedule rm.room_id ("Sem-II")) = false ∧
  slotIn slot (st.student_schedule c.get_student_key c.semester_half) = false ∧
  (st.course_daily_schedule c.course_id slot.day).length < 2 ∧
  (∀ e, st.course_daily_schedule c.course_id slot.day = [e] → collide ty e = false) ∧
  slot.duration_hours = requiredDuration ty

/-- If `_check_constraints` accepts then every individual constraint holds. -/
theorem check_true_spec {st : SchedulerState} {c : Course} {ty : SessionType}
    {slot : TimeSlot} {rm : Room}
    (h : (_check_constraints st c ty slot rm).1 = true) : CheckOk st c ty slot rm := by
  unfold _check_constraints at h
  by_cases h1 : slotIn slot (st.faculty_schedule c.faculty_name c.semester_half) = true
  · simp [h1] at h
  by_cases h2 : slotIn slot (st.room_schedule rm.room_id ("Sem-I")) = true
  · simp [h1, h2] at h
  by_cases h3 : slotIn slot (st.room_schedule rm.room_id ("Sem-II")) = true
  · simp [h1, h2, h3] at h
  by_cases h4 : slotIn slot (st.student_schedule c.get_student_key c.semester_half) = true
  · simp [h1, h2, h3, h4] at h
  simp only [Bool.not_eq_true] at h1 h2 h3 h4
  rcases hD : st.course_daily_schedule c.course_id slot.day with _ | ⟨e, _ | ⟨e2, tl⟩⟩
  · rw [hD] at h
    simp [h1, h2, h3, h4] at h
    by_cases hdur : slot.duration_hours = requiredDuration ty
    · exact ⟨h1, h2, h3, h4, by rw [hD]; simp,
        fun e he => by rw [hD] at he; simp at he, hdur⟩
    · simp [hdur] at h
  · rw [hD] at h
    simp only [h1, h2, h3, h4, Bool.false_eq_true, if_false, List.length_cons,
      List.length_nil] at h
    by_cases hc1 : (ty == SessionType.practical && e == SessionType.practical) = true
    · simp [hc1] at h
    by_cases hc2 : (ty == SessionType.lecture && e == SessionType.lecture) = true
    · simp [hc1, hc2] at h
    by_cases hc3 : (ty == SessionType.tutorial && e == SessionType.tutorial) = true
    · simp [hc1, hc2, hc3] at h
    by_cases hc4 : ((ty == SessionType.lecture && e == SessionType.tutorial) ||
        (ty == SessionType.tutorial && e == SessionType.lecture)) = true
    · simp [hc1, hc2, hc3, hc4] at h
    by_cases hdur : slot.duration_hours = requiredDuration ty
    · refine ⟨h1, h2, h3, h4, by rw [hD]; simp, ?_, hdur⟩
      intro e1 he
      rw [hD] at he
      injection he with he1 he2
      subst he1
      cases ty <;> cases e <;> simp_all [collide]
    · simp [hc1, hc2, hc3, hc4, hdur] at h
  · rw [hD] at h
    simp [h1, h2, h3, h4] at h

/-! ### Run invariants -/

/-- A per-course per-day type list respects the daily cap and the same-day
collision table. -/
def dailyOk (l : List SessionType) : Prop :=
  l.length ≤ 2 ∧ l.Pairwise (fun a b => collide b a = false)

/-- Invariant preserved by every scheduling step with no assumption on
`semester_half` values: the occupancy dictionaries record every scheduled
session, the per-day lists mirror the schedule, and the schedule has no
faculty or student double-booking, no daily-cap violation, and no duration
mismatch. -/
structure BaseInv (st : SchedulerState) : Prop where
  fac_link : ∀ s ∈ st.schedule,
    slotIn s.time_slot (st.faculty_schedule s.faculty_name s.course.semester_half) = true
  room_link : ∀ s ∈ st.schedule,
    slotIn s.time_slot (st.room_schedule s.room.room_id s.course.semester_half) = true
  stud_link : ∀ s ∈ st.schedule,
    slotIn s.time_slot
      (st.student_schedule s.course.get_student_key s.course.semester_half) = true
  daily_eq : ∀ cid day, st.course_daily_schedule cid day =
    (st.schedule.filter
      (fun s => s.course.course_id == cid && s.time_slot.day == day)).map
      (fun s => s.session_type)
  fac_uniq : st.schedule.Pairwise (fun a b => ¬(a.faculty_name = b.faculty_name ∧
    a.course.semester_half = b.course.semester_half ∧ sameSlot a.time_slot b.time_slot = true))
  stud_uniq : st.schedule.Pairwise
    (fun a b => ¬(a.course.get_student_key = b.course.get_student_key ∧
      a.course.semester_half = b.course.semester_half ∧ sameSlot a.time_slot b.time_slot = true))
  daily_ok : ∀ cid day, dailyOk (st.course_daily_schedule cid day)
  dur_ok : ∀ s ∈ st.schedule, s.time_slot.duration_hours = requiredDuration s.session_type

/-- Room exclusivity, which additionally needs every scheduled course's
`semester_half` to be `"Sem-I"` or `"Sem-II"`: the room check consults only
those two keys while the commit records under the course's own half. -/
structure HalfInv (st : SchedulerState) : Prop where
  half_ok : ∀ s ∈ st.schedule,
    s.course.semester_half = "Sem-I" ∨ s.course.semester_half = "Sem-II"
  room_uniq : st.schedule.Pairwise (fun a b => ¬(a.room.room_id = b.room.room_id ∧
    sameSlot a.time_slot b.time_slot = true))

theorem baseInv_withReasons {st : SchedulerState} (h : BaseInv st) (r : String → Nat) :
    BaseInv { st with conflict_reasons := r } :=
  ⟨h.fac_link, h.room_link, h.stud_link, h.daily_eq, h.fac_uniq, h.stud_uniq,
    h.daily_ok, h.dur_ok⟩

theorem baseInv_withConflicts {st : SchedulerState} (h : BaseInv st) (l : List String) :
    BaseInv { st with conflicts := l } :=
  ⟨h.fac_link, h.room_link, h.stud_link, h.daily_eq, h.fac_uniq, h.stud_uniq,
    h.daily_ok, h.dur_ok⟩

theorem halfInv_withReasons {st : SchedulerState} (h : HalfInv st) (r : String → Nat) :
    HalfInv { st with conflict_reasons := r } :=
  ⟨h.half_ok, h.room_uniq⟩

theorem halfInv_withConflicts {st : SchedulerState} (h : HalfInv st) (l : List String) :
    HalfInv { st with conflicts := l } :=
  ⟨h.half_ok, h.room_uniq⟩

theorem initState_base : BaseInv initState := by
  constructor <;> simp [initState, dailyOk]

theorem initState_half : HalfInv initState := by
  constructor <;> simp [initState]

/-- Committing an accepted session preserves `BaseInv`. -/
theorem commit_base {st : SchedulerState} {c : Course} {ty : SessionType}
    {slot : TimeSlot} {rm : Room} (num : Nat) (hI : BaseInv st)
    (hok : CheckOk st c ty slot rm) : BaseInv (commitSession st c ty num slot rm) := by
  obtain ⟨hf, hr1, hr2, hs, hcap, hcol, hdur⟩ := hok
  have crossDaily : ∀ a ∈ st.course_daily_schedule c.course_id slot.day,
      collide ty a = false := by
    intro a ha
    rcases hL : st.course_daily_schedule c.course_id slot.day with _ | ⟨e, _ | ⟨e2, tl⟩⟩
    · rw [hL] at ha; simp at ha
    · rw [hL] at ha
      simp only [List.mem_singleton] at ha
      subst ha
      exact hcol a hL
    · rw [hL] at hcap
      simp at hcap
      omega
  constructor
  · intro s hs1
    simp only [commitSession, List.mem_append, List.mem_singleton] at hs1
    rcases hs1 with hs1 | rfl
    · exact slotIn_upd2 (hI.fac_link s hs1) slot
    · show slotIn slot (upd2 st.faculty_schedule c.faculty_name c.semester_half slot
        c.faculty_name c.semester_half) = true
      rw [upd2_self]
      exact slotIn_self_append slot _
  · intro s hs1
    simp only [commitSession, List.mem_append, List.mem_singleton] at hs1
    rcases hs1 with hs1 | rfl
    · exact slotIn_upd2 (hI.room_link s hs1) slot
    · show slotIn slot (upd2 st.room_schedule rm.room_id c.semester_half slot
        rm.room_id c.semester_half) = true
      rw [upd2_self]
      exact slotIn_self_append slot _
  · intro s hs1
    simp only [commitSession, List.mem_append, List.mem_singleton] at hs1
    rcases hs1 with hs1 | rfl
    · exact slotIn_upd2 (hI.stud_link s hs1) slot
    · show slotIn slot (upd2 st.student_schedule c.get_student_key c.semester_half slot
        c.get_student_key c.semester_half) = true
      rw [upd2_self]
      exact slotIn_self_append slot _
  · intro cid day
    have hbase := hI.daily_eq cid day
    simp only [commitSession, List.filter_append, List.map_append, upd2]
    rcases eq_or_ne cid c.course_id with hcid | hcid
    · rcases eq_or_ne day slot.day with hday | hday
      · subst hcid
        subst hday
        simp [mkSession, hbase]
      · have hday2 : slot.day ≠ day := Ne.symm hday
        subst hcid
        simp [mkSession, hbase, hday, hday2]
    · have hcid2 : c.course_id ≠ cid := Ne.symm hcid
      simp [mkSession, hbase, hcid, hcid2]
  · show (st.schedule ++ [mkSession c ty num slot rm]).Pairwise _
    rw [List.pairwise_append]
    refine ⟨hI.fac_uniq, by simp, ?_⟩
    intro a ha b hb
    simp only [List.mem_singleton] at hb
    subst hb
    rintro ⟨hfn, hhalf, hss⟩
    simp only [mkSession] at hfn hhalf hss
    have hlink := hI.fac_link a ha
    rw [hfn, hhalf, slotIn_congr hss] at hlink
    rw [hf] at hlink
    exact absurd hlink (by simp)
  · show (st.schedule ++ [mkSession c ty num slot rm]).Pairwise _
    rw [List.pairwise_append]
    refine ⟨hI.stud_uniq, by simp, ?_⟩
    intro a ha b hb
    simp only [List.mem_singleton] at hb
    subst hb
    rintro ⟨hsk, hhalf, hss⟩
    simp only [mkSession] at hsk hhalf hss
    have hlink := hI.stud_link a ha
    rw [hsk, hhalf, slotIn_congr hss] at hlink
    rw [hs] at hlink
    exact absurd hlink (by simp)
  · intro cid day
    have hbase := hI.daily_ok cid day
    simp only [commitSession, upd2]
    split
    · rename_i hcond
      simp only [Bool.and_eq_true, beq_iff_eq] at hcond
      obtain ⟨rfl, rfl⟩ := hcond
      constructor
      · have := Nat.lt_of_lt_of_le hcap (le_refl 2)
        simp only [List.length_append, List.length_singleton]
        omega
      · rw [List.pairwise_append]
        refine ⟨hbase.2, by simp, ?_⟩
        intro a ha b hb
        simp only [List.mem_singleton] at hb
        subst hb
        exact crossDaily a ha
    · exact hbase
  · intro s hs1
    simp only [commitSession, List.mem_append, List.mem_singleton] at hs1
    rcases hs1 with hs1 | rfl
    · exact hI.dur_ok s hs1
    · simpa [mkSession] using hdur

/-- Committing an accepted session preserves `HalfInv`, provided the committing
course's `semester_half` is one of the two recognized values. -/
theorem commit_half {st : SchedulerState} {c : Course} {ty : SessionType}
    {slot : TimeSlot} {rm : Room} (num : Nat) (hB : BaseInv st) (hH : HalfInv st)
    (hok : CheckOk st c ty slot rm)
    (hc : c.semester_half = "Sem-I" ∨ c.semester_half = "Sem-II") :
    HalfInv (commitSession st c ty num slot rm) := by
  obtain ⟨hf, hr1, hr2, hs, -, -, -⟩ := hok
  constructor
  · intro s hs1
    simp only [commitSession, List.mem_append, List.mem_singleton] at hs1
    rcases hs1 with hs1 | rfl
    · exact hH.half_ok s hs1
    · simpa [mkSession] using hc
  · show (st.schedule ++ [mkSession c ty num slot rm]).Pairwise _
    rw [List.pairwise_append]
    refine ⟨hH.room_uniq, by simp, ?_⟩
    intro a ha b hb
    simp only [List.mem_singleton] at hb
    subst hb
    rintro ⟨hrid, hss⟩
    simp only [mkSession] at hrid hss
    have hlink := hB.room_link a ha
    rw [hrid, slotIn_congr hss] at hlink
    rcases hH.half_ok a ha with hh | hh <;> rw [hh] at hlink
    · rw [hr1] at hlink
      exact absurd hlink (by simp)
    · rw [hr2] at hlink
      exact absurd hlink (by simp)

/-! ### Preservation of invariants through the greedy loops -/

/-- A state predicate that survives a reasons-counter change, a conflicts-list
change, and an accepted commit for course `c` into a room satisfying `R`.
All loop functions preserve any such predicate. -/
def StepClosed (c : Course) (R : Room → Prop) (P : SchedulerState → Prop) : Prop :=
  (∀ st r, P st → P { st with conflict_reasons := r }) ∧
  (∀ st l, P st → P { st with conflicts := l }) ∧
  (∀ st ty num slot rm, R rm → P st → CheckOk st c ty slot rm →
    P (commitSession st c ty num slot rm))

/-- `CheckOk` reads no field that a reasons-counter update changes. -/
theorem checkOk_reasons {st : SchedulerState} {c : Course} {ty : SessionType}
    {slot : TimeSlot} {rm : Room} (r : String → Nat) (h : CheckOk st c ty slot rm) :
    CheckOk { st with conflict_reasons := r } c ty slot rm := h

theorem tryRooms_preserve {c : Course} {R : Room → Prop} {P : SchedulerState → Prop}
    (hP : StepClosed c R P) (ty : SessionType) (num : Nat) (slot : TimeSlot) :
    ∀ rooms st, (∀ r ∈ rooms, R r) → P st → P (tryRooms c ty num slot rooms st).2 := by
  intro rooms
  induction rooms with
  | nil => intro st _ h; exact h
  | cons r rs ih =>
    intro st hrooms h
    unfold tryRooms
    by_cases hres : (_check_constraints st c ty slot r).1 = true
    · rw [if_pos hres]
      exact hP.2.2 _ ty num slot r (hrooms r (List.mem_cons_self r rs)) (hP.1 st _ h)
        (checkOk_reasons _ (check_true_spec hres))
    · rw [if_neg hres]
      exact ih _ (fun d hd => hrooms d (List.mem_cons_of_mem r hd)) (hP.1 st _ h)

theorem trySlots_preserve {c : Course} {R : Room → Prop} {P : SchedulerState → Prop}
    (hP : StepClosed c R P) (ty : SessionType) (num : Nat) (rooms : List Room)
    (hrooms : ∀ r ∈ rooms, R r) :
    ∀ slots st, P st → P (trySlots c ty num rooms slots st).2 := by
  intro slots
  induction slots with
  | nil => intro st h; exact h
  | cons slot rest ih =>
    intro st h
    unfold trySlots
    rcases hres : tryRooms c ty num slot rooms st with ⟨b, st1⟩
    have h1 : P st1 := by
      have := tryRooms_preserve hP ty num slot rooms st hrooms h
      rwa [hres] at this
    cases b
    · exact ih st1 h1
    · exact h1

theorem schedule_session_preserve {c : Course} {R : Room → Prop}
    {P : SchedulerState → Prop} (hP : StepClosed c R P) (cfg : SchedCfg)
    (ty : SessionType) (num : Nat)
    (hsub : ∀ r ∈ _get_suitable_rooms cfg c ty, R r)
    (st : SchedulerState) (h : P st) : P (_schedule_session cfg c ty num st).2 := by
  simp only [_schedule_session]
  split
  · exact hP.1 st _ h
  · exact trySlots_preserve hP ty num _ hsub _ st h

theorem attemptSession_preserve {c : Course} {R : Room → Prop}
    {P : SchedulerState → Prop} (hP : StepClosed c R P) (cfg : SchedCfg)
    (ty : SessionType) (num : Nat)
    (hsub : ∀ r ∈ _get_suitable_rooms cfg c ty, R r)
    (p : Nat × SchedulerState) (h : P p.2) : P (attemptSession cfg c ty num p).2 := by
  unfold attemptSession
  rcases hres : _schedule_session cfg c ty num p.2 with ⟨b, st1⟩
  have h1 : P st1 := by
    have := schedule_session_preserve hP cfg ty num hsub p.2 h
    rwa [hres] at this
  cases b
  · exact hP.2.1 st1 _ h1
  · exact h1

theorem scheduleType_preserve {c : Course} {R : Room → Prop}
    {P : SchedulerState → Prop} (hP : StepClosed c R P) (cfg : SchedCfg)
    (ty : SessionType) (hsub : ∀ r ∈ _get_suitable_rooms cfg c ty, R r) :
    ∀ nums p, P p.2 → P (scheduleType cfg c ty nums p).2 := by
  intro nums
  induction nums with
  | nil => intro p h; exact h
  | cons n rest ih =>
    intro p h
    unfold scheduleType
    rw [List.foldl_cons]
    exact ih _ (attemptSession_preserve hP cfg ty n hsub p h)

theorem schedule_course_preserve {c : Course} {R : Room → Prop}
    {P : SchedulerState → Prop} (hP : StepClosed c R P) (cfg : SchedCfg)
    (hsub : ∀ ty, ∀ r ∈ _get_suitable_rooms cfg c ty, R r)
    (st : SchedulerState) (h : P st) : P (schedule_course cfg c st).2 := by
  unfold schedule_course
  exact scheduleType_preserve hP cfg _ (hsub _) _ _
    (scheduleType_preserve hP cfg _ (hsub _) _ _
      (scheduleType_preserve hP cfg _ (hsub _) _ _ h))

theorem runFold_preserve (R : Room → Prop) (P : SchedulerState → Prop) (cfg : SchedCfg) :
    ∀ cs st, (∀ c ∈ cs, StepClosed c R P) →
      (∀ c ∈ cs, ∀ ty, ∀ r ∈ _get_suitable_rooms cfg c ty, R r) →
      P st → P (runFold cfg cs st) := by
  intro cs
  induction cs with
  | nil => intro st _ _ h; exact h
  | cons c rest ih =>
    intro st hcs hsub h
    unfold runFold
    rw [List.foldl_cons]
    exact ih _ (fun d hd => hcs d (List.mem_cons_of_mem c hd))
      (fun d hd => hsub d (List.mem_cons_of_mem c hd))
      (schedule_course_preserve (hcs c (List.mem_cons_self c rest)) cfg
        (hsub c (List.mem_cons_self c rest)) st h)

/-- `BaseInv` is step-closed for every course and room. -/
theorem baseInv_stepClosed (c : Course) : StepClosed c (fun _ => True) BaseInv :=
  ⟨fun _ r h => baseInv_withReasons h r, fun _ l h => baseInv_withConflicts h l,
   fun _ _ num _ _ _ h hok => commit_base num h hok⟩

/-- `BaseInv ∧ HalfInv` is step-closed for every course whose `semester_half`
is one of the two recognized values. -/
theorem fullInv_stepClosed (c : Course)
    (hc : c.semester_half = "Sem-I" ∨ c.semester_half = "Sem-II") :
    StepClosed c (fun _ => True) (fun st => BaseInv st ∧ HalfInv st) :=
  ⟨fun _ r h => ⟨baseInv_withReasons h.1 r, halfInv_withReasons h.2 r⟩,
   fun _ l h => ⟨baseInv_withConflicts h.1 l, halfInv_withConflicts h.2 l⟩,
   fun _ _ num _ _ _ h hok =>
     ⟨commit_base num h.1 hok, commit_half num h.1 h.2 hok hc⟩⟩

/-! ### Counting scheduled sessions and conflicts -/

theorem tryRooms_count (c : Course) (ty : SessionType) (num : Nat) (slot : TimeSlot) :
    ∀ rooms st,
      (tryRooms c ty num slot rooms st).2.schedule.length =
        st.schedule.length +
          (if (tryRooms c ty num slot rooms st).1 = true then 1 else 0) ∧
      (tryRooms c ty num slot rooms st).2.conflicts = st.conflicts := by
  intro rooms
  induction rooms with
  | nil => intro st; simp [tryRooms]
  | cons r rs ih =>
    intro st
    unfold tryRooms
    by_cases hres : (_check_constraints st c ty slot r).1 = true
    · rw [if_pos hres]
      simp [commitSession]
    · rw [if_neg hres]
      exact ih _

theorem trySlots_count (c : Course) (ty : SessionType) (num : Nat) (rooms : List Room) :
    ∀ slots st,
      (trySlots c ty num rooms slots st).2.schedule.length =
        st.schedule.length +
          (if (trySlots c ty num rooms slots st).1 = true then 1 else 0) ∧
      (trySlots c ty num rooms slots st).2.conflicts = st.conflicts := by
  intro slots
  induction slots with
  | nil => intro st; simp [trySlots]
  | cons slot rest ih =>
    intro st
    unfold trySlots
    rcases hres : tryRooms c ty num slot rooms st with ⟨b, st1⟩
    have h1 := tryRooms_count c ty num slot rooms st
    rw [hres] at h1
    cases b
    · have h2 := ih st1
      simp only [] at h1
      constructor
      · rw [h2.1, h1.1]
        simp
      · rw [h2.2, h1.2]
    · simpa using h1

theorem schedule_session_count (cfg : SchedCfg) (c : Course) (ty : SessionType)
    (num : Nat) (st : SchedulerState) :
    (_schedule_session cfg c ty num st).2.schedule.length =
      st.schedule.length +
        (if (_schedule_session cfg c ty num st).1 = true then 1 else 0) ∧
    (_schedule_session cfg c ty num st).2.conflicts = st.conflicts := by
  simp only [_schedule_session]
  split
  · simp
  · exact trySlots_count c ty num _ _ st

theorem attemptSession_count (cfg : SchedCfg) (c : Course) (ty : SessionType)
    (num : Nat) (p : Nat × SchedulerState) :
    (attemptSession cfg c ty num p).2.schedule.length +
        (attemptSession cfg c ty num p).2.conflicts.length =
      p.2.schedule.length + p.2.conflicts.length + 1 := by
  unfold attemptSession
  rcases hres : _schedule_session cfg c ty num p.2 with ⟨b, st1⟩
  have h1 := schedule_session_count cfg c ty num p.2
  rw [hres] at h1
  cases b
  · simp only [] at h1 ⊢
    simp [h1.1, h1.2]
    omega
  · simp only [] at h1 ⊢
    simp [h1.1, h1.2]
    omega

theorem scheduleType_count (cfg : SchedCfg) (c : Course) (ty : SessionType) :
    ∀ nums p,
      (scheduleType cfg c ty nums p).2.schedule.length +
          (scheduleType cfg c ty nums p).2.conflicts.length =
        p.2.schedule.length + p.2.conflicts.length + nums.length := by
  intro nums
  induction nums with
  | nil => intro p; simp [scheduleType]
  | cons n rest ih =>
    intro p
    unfold scheduleType
    rw [List.foldl_cons]
    have h1 := attemptSession_count cfg c ty n p
    have h2 := ih (attemptSession cfg c ty n p)
    unfold scheduleType at h2
    rw [h2, h1]
    simp
    omega

/-- Sessions a course requires: Python `range(1, n+1)` has `max(n,0)` items. -/
def sessionCount (c : Course) : Nat :=
  c.lectures.toNat + c.tutorials.toNat + c.practicals.toNat

theorem schedule_course_count (cfg : SchedCfg) (c : Course) (st : SchedulerState) :
    (schedule_course cfg c st).2.schedule.length +
        (schedule_course cfg c st).2.conflicts.length =
      st.schedule.length + st.conflicts.length + sessionCount c := by
  unfold schedule_course
  rw [scheduleType_count, scheduleType_count, scheduleType_count]
  simp [sessionNums, sessionCount]
  omega

theorem runFold_count (cfg : SchedCfg) :
    ∀ cs st,
      (runFold cfg cs st).schedule.length + (runFold cfg cs st).conflicts.length =
        st.schedule.length + st.conflicts.length + (cs.map sessionCount).sum := by
  intro cs
  induction cs with
  | nil => intro st; simp [runFold]
  | cons c rest ih =>
    intro st
    unfold runFold
    rw [List.foldl_cons]
    have h1 := schedule_course_count cfg c st
    have h2 := ih (schedule_course cfg c st).2
    unfold runFold at h2
    rw [h2, h1]
    simp
    omega

/-! ### Sorting is a permutation; basket assignment changes only `basket` -/

theorem insCourse_perm (c : Course) : ∀ l, List.Perm (insCourse c l) (c :: l) := by
  intro l
  induction l with
  | nil => exact List.Perm.refl _
  | cons x xs ih =>
    unfold insCourse
    split
    · exact (ih.cons x).trans (List.Perm.swap c x xs)
    · exact List.Perm.refl _

theorem sortCourses_perm : ∀ l, List.Perm (sortCourses l) l := by
  intro l
  induction l with
  | nil => exact List.Perm.refl _
  | cons c cs ih =>
    unfold sortCourses
    exact (insCourse_perm c (sortCourses cs)).trans (ih.cons c)

/-- A course with its `basket` field cleared; used to state that basket
assignment touches nothing else. -/
def stripBasket (c : Course) : Course := { c with basket := none }

theorem basketFix_strip (m : List ((Int × String × String) × String)) (c : Course) :
    stripBasket (basketFix m c) = stripBasket c := by
  unfold basketFix
  split
  · split <;> rfl
  · rfl

theorem basketFix_half (m : List ((Int × String × String) × String)) (c : Course) :
    (basketFix m c).semester_half = c.semester_half := by
  have h := congrArg Course.semester_half (basketFix_strip m c)
  exact h

theorem basketFix_sessionCount (m : List ((Int × String × String) × String))
    (c : Course) : sessionCount (basketFix m c) = sessionCount c := by
  have h1 := congrArg Course.lectures (basketFix_strip m c)
  have h2 := congrArg Course.tutorials (basketFix_strip m c)
  have h3 := congrArg Course.practicals (basketFix_strip m c)
  simp only [stripBasket] at h1 h2 h3
  simp [sessionCount, h1, h2, h3]

/-! ### Run-level invariants -/

/-- After any complete run, `BaseInv` holds (no hypotheses needed). -/
theorem run_baseInv (cs : List Course) (rs : List Room) :
    BaseInv (runScheduler cs rs) := by
  unfold runScheduler
  exact runFold_preserve (fun _ => True) BaseInv _ _ initState
    (fun c _ => baseInv_stepClosed c) (fun _ _ _ _ _ => trivial) initState_base

/-- After any complete run over courses whose `semester_half` is one of the two
recognized values, `HalfInv` also holds. -/
theorem run_fullInv (cs : List Course) (rs : List Room)
    (h : ∀ c ∈ cs, c.semester_half = "Sem-I" ∨ c.semester_half = "Sem-II") :
    BaseInv (runScheduler cs rs) ∧ HalfInv (runScheduler cs rs) := by
  unfold runScheduler
  refine runFold_preserve (fun _ => True) (fun st => BaseInv st ∧ HalfInv st) _ _
    initState ?_ (fun _ _ _ _ _ => trivial) ⟨initState_base, initState_half⟩
  intro c hc
  apply fullInv_stepClosed
  have hc2 : c ∈ applyBaskets cs := (sortCourses_perm (applyBaskets cs)).mem_iff.1 hc
  obtain ⟨d, hd, rfl⟩ := List.mem_map.1 hc2
  rw [basketFix_half]
  exact h d hd

/-- Total bookkeeping: placed sessions plus conflict entries equals the number
of required sessions over all input courses. -/
theorem run_count (cs : List Course) (rs : List Room) :
    (runScheduler cs rs).schedule.length + (runScheduler cs rs).conflicts.length =
      (cs.map sessionCount).sum := by
  unfold runScheduler
  rw [runFold_count]
  have h1 : ((sortCourses (applyBaskets cs)).map sessionCount).sum =
      ((applyBaskets cs).map sessionCount).sum :=
    ((sortCourses_perm (applyBaskets cs)).map sessionCount).sum_eq
  have h2 : ((applyBaskets cs).map sessionCount).sum = (cs.map sessionCount).sum := by
    unfold applyBaskets
    rw [List.map_map]
    congr 1
    exact List.map_congr_left (fun c _ => basketFix_sessionCount _ c)
  simp [initState, h1, h2]

/-! ### Concrete sample inputs used by witnesses and counterexamples -/

/-- A well-formed course (half `"Sem-I"`, non-negative counts). -/
def sampleCourse : Course :=
  { course_id := "COURSE_1", course_code := "CS101", course_title := "Algorithms",
    semester := 3, semester_half := "Sem-I", branch := "CSE", course_section := some "A",
    lectures := 2, tutorials := 1, practicals := 1, faculty_name := "Prof X",
    is_elective := false, basket := none, num_students := 60 }

/-- A big lecture room. -/
def sampleRoom : Room := { room_id := "R101", capacity := 120 }

/-- A lab room. -/
def sampleLab : Room := { room_id := "L101", capacity := 80 }

/-- A course whose `semester_half` is neither `"Sem-I"` nor `"Sem-II"`. -/
def fhCourseA : Course :=
  { course_id := "COURSE_1", course_code := "CSA", course_title := "A", semester := 1,
    semester_half := "first-half", branch := "CSE", course_section := none,
    lectures := 1, tutorials := 0, practicals := 0, faculty_name := "F1",
    is_elective := false, basket := none, num_students := 60 }

/-- A second such course with a different faculty and student cohort. -/
def fhCourseB : Course :=
  { course_id := "COURSE_2", course_code := "CSB", course_title := "B", semester := 1,
    semester_half := "first-half", branch := "ECE", course_section := none,
    lectures := 1, tutorials := 0, practicals := 0, faculty_name := "F2",
    is_elective := false, basket := none, num_students := 60 }

/-- One shared big room. -/
def roomBig : Room := { room_id := "R1", capacity := 200 }

/-- A course requiring one lecture and one practical. -/
def mixCourse : Course :=
  { course_id := "COURSE_3", course_code := "CSC", course_title := "C", semester := 1,
    semester_half := "Sem-I", branch := "CSE", course_section := none,
    lectures := 1, tutorials := 0, practicals := 1, faculty_name := "F3",
    is_elective := false, basket := none, num_students := 60 }

/-- A lab big enough for `mixCourse`. -/
def labBig : Room := { room_id := "L2", capacity := 100 }

/-! ### Claim theorems -/

/-- C1: assuming every course's `semester_half` is `"Sem-I"` or `"Sem-II"` and
session counts are non-negative, after any complete scheduling run no two
sessions share faculty_name + semester_half + time slot, no two share
room + time slot (regardless of half), and no two share
student key + semester_half + time slot. -/
theorem no_double_booking (courses : List Course) (rooms : List Room)
    (hhalf : ∀ c ∈ courses, c.semester_half = "Sem-I" ∨ c.semester_half = "Sem-II")
    (_hcounts : ∀ c ∈ courses, 0 ≤ c.lectures ∧ 0 ≤ c.tutorials ∧ 0 ≤ c.practicals) :
    ((runScheduler courses rooms).schedule.Pairwise
      (fun a b => ¬(a.faculty_name = b.faculty_name ∧
        a.course.semester_half = b.course.semester_half ∧
        sameSlot a.time_slot b.time_slot = true))) ∧
    ((runScheduler courses rooms).schedule.Pairwise
      (fun a b => ¬(a.room.room_id = b.room.room_id ∧
        sameSlot a.time_slot b.time_slot = true))) ∧
    ((runScheduler courses rooms).schedule.Pairwise
      (fun a b => ¬(a.course.get_student_key = b.course.get_student_key ∧
        a.course.semester_half = b.course.semester_half ∧
        sameSlot a.time_slot b.time_slot = true))) := by
  obtain ⟨hB, hH⟩ := run_fullInv courses rooms hhalf
  exact ⟨hB.fac_uniq, hH.room_uniq, hB.stud_uniq⟩

/-- Witness for C1 at a concrete input. -/
theorem no_double_booking_witness :
    ((runScheduler [sampleCourse] [sampleRoom]).schedule.Pairwise
      (fun a b => ¬(a.faculty_name = b.faculty_name ∧
        a.course.semester_half = b.course.semester_half ∧
        sameSlot a.time_slot b.time_slot = true))) ∧
    ((runScheduler [sampleCourse] [sampleRoom]).schedule.Pairwise
      (fun a b => ¬(a.room.room_id = b.room.room_id ∧
        sameSlot a.time_slot b.time_slot = true))) ∧
    ((runScheduler [sampleCourse] [sampleRoom]).schedule.Pairwise
      (fun a b => ¬(a.course.get_student_key = b.course.get_student_key ∧
        a.course.semester_half = b.course.semester_half ∧
        sameSlot a.time_slot b.time_slot = true))) :=
  no_double_booking [sampleCourse] [sampleRoom] (by decide) (by decide)

/-- Conversion between the code's collision test and the claim's phrasing. -/
theorem collide_false_iff (a b : SessionType) :
    collide b a = false ↔
      (a ≠ b ∧ ¬(a = SessionType.lecture ∧ b = SessionType.tutorial) ∧
        ¬(a = SessionType.tutorial ∧ b = SessionType.lecture)) := by
  cases a <;> cases b <;> simp [collide]

/-- C2: after any run, every course has at most 2 sessions per weekday, no two
same-type sessions on one day, and never a lecture and a tutorial on the same
day; a practical, however, may share a day with a lecture (second conjunct
shows a run where it does). -/
theorem daily_cap_invariant :
    (∀ (cs : List Course) (rs : List Room) (cid day : String),
      (((runScheduler cs rs).schedule.filter
        (fun s => s.course.course_id == cid && s.time_slot.day == day)).map
        (fun s => s.session_type)).length ≤ 2 ∧
      (((runScheduler cs rs).schedule.filter
        (fun s => s.course.course_id == cid && s.time_slot.day == day)).map
        (fun s => s.session_type)).Pairwise
        (fun a b => a ≠ b ∧ ¬(a = SessionType.lecture ∧ b = SessionType.tutorial) ∧
          ¬(a = SessionType.tutorial ∧ b = SessionType.lecture))) ∧
    ((runScheduler [mixCourse] [roomBig, labBig]).schedule.map
        (fun s => (s.session_type, s.time_slot.day))) =
      [(SessionType.lecture, "Monday"), (SessionType.practical, "Monday")] := by
  constructor
  · intro cs rs cid day
    have hB := run_baseInv cs rs
    have hda := hB.daily_ok cid day
    rw [hB.daily_eq cid day] at hda
    exact ⟨hda.1, hda.2.imp (fun h => (collide_false_iff _ _).1 h)⟩
  · decide

/-- C3: for non-negative session counts, placed sessions plus conflict entries
equal the total of lectures + tutorials + practicals over all input courses. -/
theorem completeness_of_reporting (cs : List Course) (rs : List Room)
    (h : ∀ c ∈ cs, 0 ≤ c.lectures ∧ 0 ≤ c.tutorials ∧ 0 ≤ c.practicals) :
    ((runScheduler cs rs).schedule.length : Int) +
        (runScheduler cs rs).conflicts.length =
      (cs.map (fun c => c.lectures + c.tutorials + c.practicals)).sum := by
  have h1 := run_count cs rs
  have h2 : ((cs.map sessionCount).sum : Int) =
      (cs.map (fun c => c.lectures + c.tutorials + c.practicals)).sum := by
    clear h1
    induction cs with
    | nil => simp
    | cons c rest ih =>
      obtain ⟨hl, ht, hp⟩ := h c (List.mem_cons_self c rest)
      have ih2 := ih (fun d hd => h d (List.mem_cons_of_mem c hd))
      simp only [List.map_cons, List.sum_cons, sessionCount] at ih2 ⊢
      push_cast at ih2 ⊢
      omega
  rw [← h2, ← h1]
  push_cast
  ring

/-- Witness for C3 at a concrete input. -/
theorem completeness_of_reporting_witness :
    ((runScheduler [sampleCourse] [sampleRoom, sampleLab]).schedule.length : Int) +
        (runScheduler [sampleCourse] [sampleRoom, sampleLab]).conflicts.length =
      ([sampleCourse].map (fun c => c.lectures + c.tutorials + c.practicals)).sum :=
  completeness_of_reporting [sampleCourse] [sampleRoom, sampleLab] (by decide)

/-- C6: every placed session's slot duration equals the canonical duration of
its type, and those canonical durations are 1.5, 1 and 2 hours. -/
theorem duration_match (cs : List Course) (rs : List Room) :
    (∀ s ∈ (runScheduler cs rs).schedule,
      s.time_slot.duration_hours = requiredDuration s.session_type) ∧
    requiredDuration SessionType.lecture = 3/2 ∧
    requiredDuration SessionType.tutorial = 1 ∧
    requiredDuration SessionType.practical = 2 := by
  refine ⟨(run_baseInv cs rs).dur_ok, ?_, ?_, ?_⟩ <;>
    norm_num [requiredDuration, q15, q10, q20, Rat.mk'_eq_divInt, Rat.divInt_eq_div]

/-- Witness for C6: the session the run places for `mixCourse`'s lecture
satisfies the duration equation. -/
theorem duration_match_witness :
    (mkSession mixCourse SessionType.lecture 1 ⟨"Monday", 540, 630, q15⟩ roomBig).time_slot.duration_hours =
      requiredDuration (mkSession mixCourse SessionType.lecture 1 ⟨"Monday", 540, 630, q15⟩ roomBig).session_type :=
  (duration_match [mixCourse] [roomBig, labBig]).1 _ (by decide)

/-- C9 (implicit): the room check consults only the literal halves `"Sem-I"`
and `"Sem-II"` while a commit records under the course's own `semester_half`;
so room exclusivity holds when every half is one of those two strings, and a
run over two `"first-half"` courses commits two sessions to the same room and
the same slot. -/
theorem room_exclusivity_half_dependence :
    (∀ (cs : List Course) (rs : List Room),
      (∀ c ∈ cs, c.semester_half = "Sem-I" ∨ c.semester_half = "Sem-II") →
      (runScheduler cs rs).schedule.Pairwise
        (fun a b => ¬(a.room.room_id = b.room.room_id ∧
          sameSlot a.time_slot b.time_slot = true))) ∧
    ((runScheduler [fhCourseA, fhCourseB] [roomBig]).schedule.map
        (fun s => (s.room.room_id, s.time_slot.day, s.time_slot.start_time,
          s.time_slot.end_time))) =
      [("R1", "Monday", 540, 630), ("R1", "Monday", 540, 630)] :=
  ⟨fun cs rs h => (run_fullInv cs rs h).2.room_uniq, by decide⟩

/-- Witness for C9's universally quantified conjunct at a concrete input. -/
theorem room_exclusivity_half_dependence_witness :
    (runScheduler [mixCourse] [roomBig, labBig]).schedule.Pairwise
      (fun a b => ¬(a.room.room_id = b.room.room_id ∧
        sameSlot a.time_slot b.time_slot = true)) :=
  room_exclusivity_half_dependence.1 [mixCourse] [roomBig, labBig] (by decide)

/-- A state in which `mixCourse` already has two sessions on Monday. -/
def twoSessionsState : SchedulerState :=
  { initState with course_daily_schedule := fun cid day =>
      if cid == "COURSE_3" && day == "Monday" then
        [SessionType.lecture, SessionType.practical]
      else [] }

/-- A state in which `mixCourse`'s faculty is busy Monday 9:00-10:30. -/
def facBusyState : SchedulerState :=
  { initState with faculty_schedule := fun f h =>
      if f == "F3" && h == "Sem-I" then [⟨"Monday", 540, 630, q15⟩] else [] }

/-- C4 counterexample: when the course already has 2 sessions that day, the
returned rejection reason is `"Course already has 2 sessions today"`, not
`"Max 2 sessions/day exceeded"` (the latter is only the counter key). -/
theorem check_daily_reason_cex :
    (twoSessionsState.course_daily_schedule mixCourse.course_id "Monday").length = 2 ∧
    (_check_constraints twoSessionsState mixCourse SessionType.tutorial
      ⟨"Monday", 540, 600, q10⟩ roomBig).1 = false ∧
    (_check_constraints twoSessionsState mixCourse SessionType.tutorial
      ⟨"Monday", 540, 600, q10⟩ roomBig).2.1 ≠ "Max 2 sessions/day exceeded" ∧
    (_check_constraints twoSessionsState mixCourse SessionType.tutorial
      ⟨"Monday", 540, 600, q10⟩ roomBig).2.1 = "Course already has 2 sessions today" := by
  decide

/-- C4 (amended): `_check_constraints` evaluates faculty-busy, room-occupied,
students-busy, daily-cap, same-day-type collision, duration mismatch in that
order, reporting only the first failure; the daily-cap rejection returns
`"Course already has 2 sessions today"` while incrementing the counter key
`"Max 2 sessions/day exceeded"`; all other reason strings are as listed. -/
theorem check_order_and_reasons (st : SchedulerState) (c : Course) (ty : SessionType)
    (slot : TimeSlot) (rm : Room) :
    (slotIn slot (st.faculty_schedule c.faculty_name c.semester_half) = true →
      _check_constraints st c ty slot rm =
        (false, "Faculty busy", bump st.conflict_reasons ("Faculty busy"))) ∧
    (slotIn slot (st.faculty_schedule c.faculty_name c.semester_half) = false →
      (slotIn slot (st.room_schedule rm.room_id ("Sem-I")) ||
        slotIn slot (st.room_schedule rm.room_id ("Sem-II"))) = true →
      _check_constraints st c ty slot rm =
        (false, "Room occupied", bump st.conflict_reasons ("Room occupied"))) ∧
    (slotIn slot (st.faculty_schedule c.faculty_name c.semester_half) = false →
      (slotIn slot (st.room_schedule rm.room_id ("Sem-I")) ||
        slotIn slot (st.room_schedule rm.room_id ("Sem-II"))) = false →
      slotIn slot (st.student_schedule c.get_student_key c.semester_half) = true →
      _check_constraints st c ty slot rm =
        (false, "Students busy", bump st.conflict_reasons ("Students busy"))) ∧
    (slotIn slot (st.faculty_schedule c.faculty_name c.semester_half) = false →
      (slotIn slot (st.room_schedule rm.room_id ("Sem-I")) ||
        slotIn slot (st.room_schedule rm.room_id ("Sem-II"))) = false →
      slotIn slot (st.student_schedule c.get_student_key c.semester_half) = false →
      2 ≤ (st.course_daily_schedule c.course_id slot.day).length →
      _check_constraints st c ty slot rm =
        (false, "Course already has 2 sessions today",
          bump st.conflict_reasons ("Max 2 sessions/day exceeded"))) ∧
    (∀ e, slotIn slot (st.faculty_schedule c.faculty_name c.semester_half) = false →
      (slotIn slot (st.room_schedule rm.room_id ("Sem-I")) ||
        slotIn slot (st.room_schedule rm.room_id ("Sem-II"))) = false →
      slotIn slot (st.student_schedule c.get_student_key c.semester_half) = false →
      st.course_daily_schedule c.course_id slot.day = [e] →
      ty = e →
      _check_constraints st c ty slot rm =
        (false,
          (if ty = SessionType.practical then "Already has a practical today"
           else if ty = SessionType.lecture then "Already has a lecture today"
           else "Already has a tutorial today"),
          bump st.conflict_reasons
            (if ty = SessionType.practical then "Two practicals same day"
             else if ty = SessionType.lecture then "Two lectures same day"
             else "Two tutorials same day"))) ∧
    (∀ e, slotIn slot (st.faculty_schedule c.faculty_name c.semester_half) = false →
      (slotIn slot (st.room_schedule rm.room_id ("Sem-I")) ||
        slotIn slot (st.room_schedule rm.room_id ("Sem-II"))) = false →
      slotIn slot (st.student_schedule c.get_student_key c.semester_half) = false →
      st.course_daily_schedule c.course_id slot.day = [e] →
      ((ty = SessionType.lecture ∧ e = SessionType.tutorial) ∨
        (ty = SessionType.tutorial ∧ e = SessionType.lecture)) →
      _check_constraints st c ty slot rm =
        (false, "Already has a theory session today",
          bump st.conflict_reasons ("Lecture+Tutorial same day"))) ∧
    (slotIn slot (st.faculty_schedule c.faculty_name c.semester_half) = false →
      (slotIn slot (st.room_schedule rm.room_id ("Sem-I")) ||
        slotIn slot (st.room_schedule rm.room_id ("Sem-II"))) = false →
      slotIn slot (st.student_schedule c.get_student_key c.semester_half) = false →
      (st.course_daily_schedule c.course_id slot.day).length < 2 →
      (∀ e, st.course_daily_schedule c.course_id slot.day = [e] → collide ty e = false) →
      slot.duration_hours ≠ requiredDuration ty →
      _check_constraints st c ty slot rm =
        (false, "Wrong duration", bump st.conflict_reasons ("Wrong duration"))) ∧
    (CheckOk st c ty slot rm →
      _check_constraints st c ty slot rm = (true, "OK", st.conflict_reasons)) := by
  refine ⟨?_, ?_, ?_, ?_, ?_, ?_, ?_, ?_⟩
  · intro h1
    simp [_check_constraints, h1]
  · intro h1 h2
    simp [_check_constraints, h1, h2]
  · intro h1 h2 h3
    simp only [Bool.or_eq_false_iff] at h2
    simp [_check_constraints, h1, h2.1, h2.2, h3]
  · intro h1 h2 h3 h4
    simp only [Bool.or_eq_false_iff] at h2
    simp [_check_constraints, h1, h2.1, h2.2, h3, h4]
  · intro e h1 h2 h3 hD hty
    subst hty
    simp only [Bool.or_eq_false_iff] at h2
    cases ty <;> simp [_check_constraints, h1, h2.1, h2.2, h3, hD]
  · intro e h1 h2 h3 hD hty
    simp only [Bool.or_eq_false_iff] at h2
    rcases hty with ⟨rfl, rfl⟩ | ⟨rfl, rfl⟩ <;>
      simp [_check_constraints, h1, h2.1, h2.2, h3, hD]
  · intro h1 h2 h3 h4 h5 h6
    simp only [Bool.or_eq_false_iff] at h2
    have h4n : ¬ 2 ≤ (st.course_daily_schedule c.course_id slot.day).length := by omega
    rcases hD : st.course_daily_schedule c.course_id slot.day with _ | ⟨e, _ | ⟨e2, tl⟩⟩
    · simp [_check_constraints, h1, h2.1, h2.2, h3, hD, h6]
    · have hce := h5 e hD
      have hb : (ty == SessionType.practical && e == SessionType.practical) = false ∧
          (ty == SessionType.lecture && e == SessionType.lecture) = false ∧
          (ty == SessionType.tutorial && e == SessionType.tutorial) = false ∧
          ((ty == SessionType.lecture && e == SessionType.tutorial) ||
            (ty == SessionType.tutorial && e == SessionType.lecture)) = false := by
        cases ty <;> cases e <;> simp_all [collide]
      simp [_check_constraints, h1, h2.1, h2.2, h3, hD, hb.1, hb.2.1, hb.2.2.1,
        hb.2.2.2, h6]
    · rw [hD] at h4n
      simp at h4n
  · rintro ⟨hf, hr1, hr2, hs, hcap, hcol, hdur⟩
    have h4n : ¬ 2 ≤ (st.course_daily_schedule c.course_id slot.day).length := by omega
    rcases hD : st.course_daily_schedule c.course_id slot.day with _ | ⟨e, _ | ⟨e2, tl⟩⟩
    · simp [_check_constraints, hf, hr1, hr2, hs, hD, hdur]
    · have hce := hcol e hD
      have hb : (ty == SessionType.practical && e == SessionType.practical) = false ∧
          (ty == SessionType.lecture && e == SessionType.lecture) = false ∧
          (ty == SessionType.tutorial && e == SessionType.tutorial) = false ∧
          ((ty == SessionType.lecture && e == SessionType.tutorial) ||
            (ty == SessionType.tutorial && e == SessionType.lecture)) = false := by
        cases ty <;> cases e <;> simp_all [collide]
      simp [_check_constraints, hf, hr1, hr2, hs, hD, hb.1, hb.2.1, hb.2.2.1,
        hb.2.2.2, hdur]
    · rw [hD] at h4n
      simp at h4n

/-- Witness for C4's amended theorem: a busy faculty at a concrete state is
rejected with reason `"Faculty busy"`. -/
theorem check_order_and_reasons_witness :
    _check_constraints facBusyState mixCourse SessionType.lecture
      ⟨"Monday", 540, 630, q15⟩ roomBig =
      (false, "Faculty busy", bump facBusyState.conflict_reasons ("Faculty busy")) :=
  (check_order_and_reasons facBusyState mixCourse SessionType.lecture
    ⟨"Monday", 540, 630, q15⟩ roomBig).1 (by decide)

/-! ### Room classifier lemmas (C5) -/

theorem mem_insRoom {a r : Room} : ∀ {l}, a ∈ insRoom r l ↔ a = r ∨ a ∈ l := by
  intro l
  induction l with
  | nil => simp [insRoom]
  | cons x xs ih =>
    unfold insRoom
    split
    · simp only [List.mem_cons, ih]
      tauto
    · simp only [List.mem_cons]

theorem mem_sortRoomsDesc {a : Room} : ∀ {l}, a ∈ sortRoomsDesc l ↔ a ∈ l := by
  intro l
  induction l with
  | nil => simp [sortRoomsDesc]
  | cons x xs ih =>
    unfold sortRoomsDesc
    rw [mem_insRoom, ih]
    simp [List.mem_cons]

theorem insRoom_sorted (r : Room) :
    ∀ l, l.Pairwise (fun x y => y.capacity ≤ x.capacity) →
      (insRoom r l).Pairwise (fun x y => y.capacity ≤ x.capacity) := by
  intro l
  induction l with
  | nil => intro; simp [insRoom]
  | cons x xs ih =>
    intro h
    rw [List.pairwise_cons] at h
    obtain ⟨hx, hxs⟩ := h
    unfold insRoom
    split
    · rename_i hlt
      rw [List.pairwise_cons]
      refine ⟨?_, ih hxs⟩
      intro y hy
      rcases mem_insRoom.1 hy with rfl | hy2
      · exact le_of_lt hlt
      · exact hx y hy2
    · rename_i hnlt
      rw [List.pairwise_cons]
      refine ⟨?_, by rw [List.pairwise_cons]; exact ⟨hx, hxs⟩⟩
      intro y hy
      rcases List.mem_cons.1 hy with rfl | hy2
      · exact le_of_not_lt hnlt
      · exact le_trans (hx y hy2) (le_of_not_lt hnlt)

theorem sortRoomsDesc_sorted :
    ∀ l, (sortRoomsDesc l).Pairwise (fun x y => y.capacity ≤ x.capacity) := by
  intro l
  induction l with
  | nil => simp [sortRoomsDesc]
  | cons x xs ih => exact insRoom_sorted x (sortRoomsDesc xs) ih

/-- C5 counterexample: a big lab-prefixed room lands in both `big_rooms` and
`labs`; a small room containing the `LAB` marker but not starting with `L`
lands in both `regular_rooms` and `labs` — the classes are not disjoint. -/
theorem room_classifier_cex :
    ({ room_id := "L1", capacity := 150 } : Room) ∈ (mkCfg [⟨"L1", 150⟩]).big_rooms ∧
    ({ room_id := "L1", capacity := 150 } : Room) ∈ (mkCfg [⟨"L1", 150⟩]).labs ∧
    ({ room_id := "XLAB", capacity := 50 } : Room) ∈ (mkCfg [⟨"XLAB", 50⟩]).regular_rooms ∧
    ({ room_id := "XLAB", capacity := 50 } : Room) ∈ (mkCfg [⟨"XLAB", 50⟩]).labs := by
  decide

/-- C5 (amended): membership in each class is characterized as in the source
(big: capacity ≥ 100; regular: capacity < 100 and id not starting with `"L"`;
labs: id lab-like); every room is in at least one class; `big_rooms` and
`regular_rooms` are disjoint and both sorted by descending capacity — but
`labs` may overlap either of the other two classes. -/
theorem room_classifier_spec (rs : List Room) (r : Room) :
    (r ∈ (mkCfg rs).big_rooms ↔ r ∈ rs ∧ 100 ≤ r.capacity) ∧
    (r ∈ (mkCfg rs).regular_rooms ↔
      r ∈ rs ∧ r.capacity < 100 ∧ strStarts r.room_id ("L") = false) ∧
    (r ∈ (mkCfg rs).labs ↔ r ∈ rs ∧ labLike r = true) ∧
    (r ∈ rs →
      r ∈ (mkCfg rs).big_rooms ∨ r ∈ (mkCfg rs).regular_rooms ∨ r ∈ (mkCfg rs).labs) ∧
    ¬(r ∈ (mkCfg rs).big_rooms ∧ r ∈ (mkCfg rs).regular_rooms) ∧
    (mkCfg rs).big_rooms.Pairwise (fun x y => y.capacity ≤ x.capacity) ∧
    (mkCfg rs).regular_rooms.Pairwise (fun x y => y.capacity ≤ x.capacity) := by
  refine ⟨?_, ?_, ?_, ?_, ?_, ?_, ?_⟩
  · simp [mkCfg, mem_sortRoomsDesc, List.mem_filter]
  · simp [mkCfg, mem_sortRoomsDesc, List.mem_filter, and_assoc]
  · simp [mkCfg, List.mem_filter]
  · intro hr
    by_cases h1 : 100 ≤ r.capacity
    · left
      simp [mkCfg, mem_sortRoomsDesc, List.mem_filter, hr, h1]
    · by_cases h2 : strStarts r.room_id ("L") = true
      · right; right
        simp [mkCfg, List.mem_filter, hr, labLike, h2]
      · right; left
        simp only [Bool.not_eq_true] at h2
        have h3 : r.capacity < 100 := by omega
        simp [mkCfg, mem_sortRoomsDesc, List.mem_filter, hr, h2, h3]
  · rintro ⟨hb, hrg⟩
    simp only [mkCfg, mem_sortRoomsDesc, List.mem_filter, decide_eq_true_eq,
      Bool.and_eq_true] at hb hrg
    omega
  · exact sortRoomsDesc_sorted _
  · exact sortRoomsDesc_sorted _

/-- Witness for C5's amended theorem: coverage at a concrete input. -/
theorem room_classifier_spec_witness :
    sampleRoom ∈ (mkCfg [sampleRoom, sampleLab]).big_rooms ∨
    sampleRoom ∈ (mkCfg [sampleRoom, sampleLab]).regular_rooms ∨
    sampleRoom ∈ (mkCfg [sampleRoom, sampleLab]).labs :=
  (room_classifier_spec [sampleRoom, sampleLab] sampleRoom).2.2.2.1 (by decide)

/-! ### The single-course scenario (C7) -/

/-- C7 counterexample: one course with 1 lecture and one room with sufficient
capacity — but the room id starts with `"L"` and its capacity is below 100, so
it is classified as a lab, no suitable room exists for the lecture, and the run
produces zero scheduled sessions and one conflict. -/
theorem single_course_lab_room_cex :
    fhCourseA.lectures = 1 ∧ fhCourseA.tutorials = 0 ∧ fhCourseA.practicals = 0 ∧
    fhCourseA.num_students ≤ ({ room_id := "L1", capacity := 60 } : Room).capacity ∧
    (runScheduler [fhCourseA] [⟨"L1", 60⟩]).schedule = [] ∧
    (runScheduler [fhCourseA] [⟨"L1", 60⟩]).conflicts.length = 1 := by
  decide

/-- C7 (amended): for one course with exactly 1 lecture (0 tutorials,
0 practicals) and one room of sufficient capacity that is classified big or
regular (capacity ≥ 100, or id not starting with `"L"`), the run places exactly
one session, at Monday 9:00-10:30 (the first generated 1.5h slot), in that
room, with zero conflicts. -/
theorem single_course_scenario (c : Course) (r : Room)
    (hl : c.lectures = 1) (ht : c.tutorials = 0) (hp : c.practicals = 0)
    (hcap : c.num_students ≤ r.capacity)
    (hclass : 100 ≤ r.capacity ∨ strStarts r.room_id ("L") = false) :
    (runScheduler [c] [r]).schedule =
      [mkSession c SessionType.lecture 1 ⟨"Monday", 540, 630, q15⟩ r] ∧
    (runScheduler [c] [r]).conflicts = [] := by
  have hab : applyBaskets [c] = [c] := by
    cases hc : c.is_elective <;>
      simp [applyBaskets, basketAssignment, electiveGroups, electiveGroupsAux,
        addGroup, assignIds, basketFix, lookupId, hc]
  have hsuit : _get_suitable_rooms (mkCfg [r]) c SessionType.lecture = [r] := by
    have hlect : (SessionType.lecture == SessionType.practical) = false := rfl
    rcases hclass with h1 | h1
    · have h2 : ¬ r.capacity < 100 := by omega
      simp [_get_suitable_rooms, mkCfg, sortRoomsDesc, insRoom, hlect, h1, h2, hcap]
    · by_cases h2 : 100 ≤ r.capacity
      · have h3 : ¬ r.capacity < 100 := by omega
        simp [_get_suitable_rooms, mkCfg, sortRoomsDesc, insRoom, hlect, h2, h3, hcap]
      · have h3 : r.capacity < 100 := by omega
        simp [_get_suitable_rooms, mkCfg, sortRoomsDesc, insRoom, hlect, h1, h2, h3, hcap]
  have hchk : _check_constraints initState c SessionType.lecture
      ⟨"Monday", 540, 630, q15⟩ r = (true, "OK", initState.conflict_reasons) := by
    simp [_check_constraints, initState, slotIn, requiredDuration]
  have hslots : (mkCfg [r]).slots_by_duration (requiredDuration SessionType.lecture) =
      ⟨"Monday", 540, 630, q15⟩ ::
        ((mkCfg [r]).slots_by_duration (requiredDuration SessionType.lecture)).tail := rfl
  have hsession : _schedule_session (mkCfg [r]) c SessionType.lecture 1 initState =
      (true, commitSession initState c SessionType.lecture 1 ⟨"Monday", 540, 630, q15⟩ r) := by
    simp only [_schedule_session, hsuit]
    rw [if_neg (by simp)]
    rw [hslots]
    unfold trySlots
    unfold tryRooms
    rw [hchk]
    simp
  have hn1 : sessionNums (1 : Int) = [1] := rfl
  have hn0 : sessionNums (0 : Int) = [] := rfl
  have hcourse : (schedule_course (mkCfg [r]) c initState).2 =
      commitSession initState c SessionType.lecture 1 ⟨"Monday", 540, 630, q15⟩ r := by
    simp [schedule_course, hl, ht, hp, hn1, hn0, scheduleType, attemptSession, hsession]
  have hrun : runScheduler [c] [r] =
      commitSession initState c SessionType.lecture 1 ⟨"Monday", 540, 630, q15⟩ r := by
    rw [runScheduler, hab]
    show runFold (mkCfg [r]) (sortCourses [c]) initState = _
    rw [show sortCourses [c] = [c] from rfl]
    show (schedule_course (mkCfg [r]) c initState).2 = _
    exact hcourse
  rw [hrun]
  constructor
  · simp [commitSession, initState, mkSession]
  · simp [commitSession, initState]

/-- Witness for C7's amended theorem at a concrete input. -/
theorem single_course_scenario_witness :
    (runScheduler [fhCourseA] [roomBig]).schedule =
      [mkSession fhCourseA SessionType.lecture 1 ⟨"Monday", 540, 630, q15⟩ roomBig] ∧
    (runScheduler [fhCourseA] [roomBig]).conflicts = [] :=
  single_course_scenario fhCourseA roomBig (by decide) (by decide) (by decide)
    (by decide) (by decide)

/-! ### Basket detection lemmas (C8) -/

/-- First-match lookup in the elective-groups association list. -/
def lookupGroup (gs : List ((Int × String × String) × List Course))
    (k : Int × String × String) : Option (List Course) :=
  match gs with
  | [] => none
  | (k1, l) :: rest => if k1 = k then some l else lookupGroup rest k

/-- The elective courses of `cs` whose key is `k`, in input order. -/
def electivesWithKey (cs : List Course) (k : Int × String × String) : List Course :=
  cs.filter (fun c => c.is_elective && decide (electiveKey c = k))

/-- The keys of an elective-groups association list. -/
def groupKeys (gs : List ((Int × String × String) × List Course)) :
    List (Int × String × String) :=
  gs.map Prod.fst

/-- The number of groups with more than one member. -/
def multiCount (gs : List ((Int × String × String) × List Course)) : Nat :=
  (gs.filter (fun g => decide (1 < g.2.length))).length

theorem lookupGroup_addGroup : ∀ gs (k : Int × String × String) (c : Course) k1,
    lookupGroup (addGroup gs k c) k1 =
      if k1 = k then
        (match lookupGroup gs k with
         | some l => some (l ++ [c])
         | none => some [c])
      else lookupGroup gs k1 := by
  intro gs
  induction gs with
  | nil =>
    intro k c k1
    by_cases h : k1 = k
    · subst h
      simp [addGroup, lookupGroup]
    · have h2 : ¬(k = k1) := fun hh => h hh.symm
      simp [addGroup, lookupGroup, h, h2]
  | cons g rest ih =>
    intro k c k1
    obtain ⟨k2, l⟩ := g
    by_cases hk2 : k2 = k
    · subst hk2
      by_cases h1 : k1 = k2
      · subst h1
        simp [addGroup, lookupGroup]
      · have h2 : ¬(k2 = k1) := fun hh => h1 hh.symm
        simp [addGroup, lookupGroup, h1, h2]
    · by_cases h1 : k1 = k2
      · subst h1
        have h3 : ¬(k1 = k) := hk2
        simp [addGroup, lookupGroup, hk2, h3]
      · have h2 : ¬(k2 = k1) := fun hh => h1 hh.symm
        simp [addGroup, lookupGroup, hk2, h2, ih k c k1]

theorem lookupGroup_aux : ∀ (cs : List Course) gs k,
    lookupGroup (electiveGroupsAux gs cs) k =
      (match lookupGroup gs k with
       | some l => some (l ++ electivesWithKey cs k)
       | none =>
         if electivesWithKey cs k = [] then none else some (electivesWithKey cs k)) := by
  intro cs
  induction cs with
  | nil =>
    intro gs k
    cases hg : lookupGroup gs k <;> simp [electiveGroupsAux, electivesWithKey, hg]
  | cons c cs ih =>
    intro gs k
    cases hel : c.is_elective
    · simp only [electiveGroupsAux, hel, if_false, Bool.false_eq_true]
      rw [ih gs k]
      have he : electivesWithKey (c :: cs) k = electivesWithKey cs k := by
        simp [electivesWithKey, hel]
      rw [he]
    · by_cases hk : electiveKey c = k
      · have he : electivesWithKey (c :: cs) k = c :: electivesWithKey cs k := by
          simp [electivesWithKey, hel, hk]
        simp only [electiveGroupsAux, hel, if_true]
        rw [ih (addGroup gs (electiveKey c) c) k, lookupGroup_addGroup, hk, if_pos rfl, he]
        cases hg : lookupGroup gs k
        · simp
        · simp
      · have he : electivesWithKey (c :: cs) k = electivesWithKey cs k := by
          simp [electivesWithKey, hk]
        simp only [electiveGroupsAux, hel, if_true]
        rw [ih (addGroup gs (electiveKey c) c) k, lookupGroup_addGroup,
          if_neg (fun hh => hk hh.symm), he]

theorem mem_groupKeys_addGroup {x : Int × String × String} :
    ∀ gs k c, x ∈ groupKeys (addGroup gs k c) ↔ x ∈ groupKeys gs ∨ x = k := by
  intro gs
  induction gs with
  | nil => intro k c; simp [addGroup, groupKeys]
  | cons g rest ih =>
    intro k c
    obtain ⟨k2, l⟩ := g
    by_cases hk2 : k2 = k
    · subst hk2
      simp [addGroup, groupKeys]
      tauto
    · simp only [addGroup, if_neg hk2, groupKeys, List.map_cons, List.mem_cons]
      rw [show (List.map Prod.fst (addGroup rest k c)) = groupKeys (addGroup rest k c)
        from rfl, ih k c]
      simp [groupKeys]
      tauto

theorem nodup_addGroup : ∀ gs (k : Int × String × String) (c : Course),
    (groupKeys gs).Nodup → (groupKeys (addGroup gs k c)).Nodup := by
  intro gs
  induction gs with
  | nil => intro k c _; simp [addGroup, groupKeys]
  | cons g rest ih =>
    intro k c h
    obtain ⟨k2, l⟩ := g
    simp only [groupKeys, List.map_cons, List.nodup_cons] at h
    by_cases hk2 : k2 = k
    · subst hk2
      rw [addGroup, if_pos rfl]
      simp only [groupKeys, List.map_cons, List.nodup_cons]
      exact h
    · simp only [addGroup, if_neg hk2, groupKeys, List.map_cons, List.nodup_cons]
      constructor
      · intro hmem
        rcases (mem_groupKeys_addGroup rest k c).1 hmem with h2 | h2
        · exact h.1 h2
        · exact hk2 h2
      · exact ih k c h.2

theorem nodup_electiveGroupsAux : ∀ (cs : List Course) gs,
    (groupKeys gs).Nodup → (groupKeys (electiveGroupsAux gs cs)).Nodup := by
  intro cs
  induction cs with
  | nil => intro gs h; exact h
  | cons c cs ih =>
    intro gs h
    cases hel : c.is_elective
    · simp only [electiveGroupsAux, hel, Bool.false_eq_true, if_false]
      exact ih gs h
    · simp only [electiveGroupsAux, hel, if_true]
      exact ih _ (nodup_addGroup gs (electiveKey c) c h)

theorem nodup_electiveGroups (cs : List Course) :
    (groupKeys (electiveGroups cs)).Nodup :=
  nodup_electiveGroupsAux cs [] (by simp [groupKeys])

theorem lookupGroup_eq_none_iff {k : Int × String × String} :
    ∀ gs, lookupGroup gs k = none ↔ k ∉ groupKeys gs := by
  intro gs
  induction gs with
  | nil => simp [lookupGroup, groupKeys]
  | cons g rest ih =>
    obtain ⟨k2, l⟩ := g
    by_cases hk2 : k2 = k
    · subst hk2
      simp [lookupGroup, groupKeys]
    · simp only [lookupGroup, if_neg hk2, groupKeys, List.map_cons, List.mem_cons, ih]
      constructor
      · intro h hmem
        rcases hmem with h2 | h2
        · exact hk2 h2.symm
        · exact h h2
      · intro h h2
        exact h (Or.inr h2)

theorem lookupId_assignIds_none : ∀ gs n (k : Int × String × String),
    lookupGroup gs k = none → lookupId (assignIds gs n) k = none := by
  intro gs
  induction gs with
  | nil => intro n k _; simp [assignIds, lookupId]
  | cons g rest ih =>
    intro n k h
    obtain ⟨k2, l⟩ := g
    by_cases hk2 : k2 = k
    · subst hk2
      simp [lookupGroup] at h
    · simp only [lookupGroup, if_neg hk2] at h
      simp only [assignIds]
      split
      · simp only [lookupId, if_neg hk2]
        exact ih _ k h
      · exact ih _ k h

theorem lookupId_isSome : ∀ gs n (k : Int × String × String), (groupKeys gs).Nodup →
    (lookupId (assignIds gs n) k).isSome =
      (match lookupGroup gs k with
       | some l => decide (1 < l.length)
       | none => false) := by
  intro gs
  induction gs with
  | nil => intro n k _; simp [assignIds, lookupId, lookupGroup]
  | cons g rest ih =>
    intro n k hnd
    obtain ⟨k2, l⟩ := g
    simp only [groupKeys, List.map_cons, List.nodup_cons] at hnd
    by_cases hk2 : k2 = k
    · subst hk2
      have hnone : lookupGroup rest k2 = none := lookupGroup_eq_none_iff rest |>.2 hnd.1
      by_cases hlen : 1 < l.length
      · simp [assignIds, hlen, lookupId, lookupGroup]
      · simp only [assignIds, if_neg hlen, lookupGroup, if_pos rfl]
        rw [lookupId_assignIds_none rest n k2 hnone]
        simp [hlen]
    · by_cases hlen : 1 < l.length
      · simp only [assignIds, if_pos hlen, lookupId, if_neg hk2, lookupGroup]
        exact ih (n + 1) k hnd.2
      · simp only [assignIds, if_neg hlen, lookupGroup, if_neg hk2]
        exact ih n k hnd.2

theorem assignIds_values : ∀ gs n,
    (assignIds gs n).map Prod.snd =
      (List.range (multiCount gs)).map (fun i => "B" ++ toString (n + i)) := by
  intro gs
  induction gs with
  | nil => intro n; simp [assignIds, multiCount]
  | cons g rest ih =>
    intro n
    obtain ⟨k2, l⟩ := g
    by_cases hlen : 1 < l.length
    · have hmc : multiCount ((k2, l) :: rest) = multiCount rest + 1 := by
        simp [multiCount, hlen]
      simp only [assignIds, if_pos hlen, List.map_cons, ih (n + 1), hmc]
      rw [List.range_succ_eq_map]
      simp only [List.map_cons, List.map_map, Nat.add_zero, Function.comp_def]
      refine congrArg₂ List.cons rfl ?_
      apply List.map_congr_left
      intro i _
      have h5 : n + 1 + i = n + i.succ := by omega
      rw [h5]
    · have hmc : multiCount ((k2, l) :: rest) = multiCount rest := by
        simp [multiCount, hlen]
      simp only [assignIds, if_neg hlen, ih n, hmc]

theorem lookupId_basketAssignment (cs : List Course) (k : Int × String × String) :
    (lookupId (basketAssignment cs) k).isSome =
      decide (1 < (electivesWithKey cs k).length) := by
  have h1 := lookupId_isSome (electiveGroups cs) 1 k (nodup_electiveGroups cs)
  have h2 := lookupGroup_aux cs [] k
  simp only [lookupGroup] at h2
  rw [basketAssignment, h1]
  rw [show electiveGroups cs = electiveGroupsAux [] cs from rfl, h2]
  by_cases he : electivesWithKey cs k = []
  · simp [he]
  · simp [he]

/-- C8: with fresh input courses (`basket = none` throughout), after
`_detect_baskets` a course's basket is set iff it is elective and at least one
other elective shares its `(semester, branch, semester_half)` key; all elective
courses sharing a key receive the same basket id; and the ids handed out are
exactly `"B1", "B2", ...` in group first-appearance order — the assignment is a
pure function of the input list, hence deterministic. -/
theorem basket_assignment_spec (cs : List Course) (hb : ∀ c ∈ cs, c.basket = none) :
    (applyBaskets cs = cs.map (basketFix (basketAssignment cs))) ∧
    ((applyBaskets cs).length = cs.length) ∧
    (∀ c ∈ cs, ((basketFix (basketAssignment cs) c).basket ≠ none ↔
      (c.is_elective = true ∧ 1 < (electivesWithKey cs (electiveKey c)).length))) ∧
    (∀ c ∈ cs, ∀ d ∈ cs, c.is_elective = true → d.is_elective = true →
      electiveKey c = electiveKey d →
      (basketFix (basketAssignment cs) c).basket =
        (basketFix (basketAssignment cs) d).basket) ∧
    ((basketAssignment cs).map Prod.snd =
      (List.range (multiCount (electiveGroups cs))).map
        (fun i => "B" ++ toString (1 + i))) := by
  refine ⟨rfl, by simp [applyBaskets], ?_, ?_, assignIds_values (electiveGroups cs) 1⟩
  · intro c hc
    have hcb := hb c hc
    have hsome := lookupId_basketAssignment cs (electiveKey c)
    cases hel : c.is_elective
    · simp [basketFix, hel, hcb]
    · cases hl : lookupId (basketAssignment cs) (electiveKey c)
      · rw [hl] at hsome
        simp only [Option.isSome_none] at hsome
        have : ¬ 1 < (electivesWithKey cs (electiveKey c)).length := by
          intro hgt
          rw [decide_eq_true hgt] at hsome
          exact Bool.false_ne_true hsome
        simp [basketFix, hel, hl, hcb, this]
      · rw [hl] at hsome
        simp only [Option.isSome_some] at hsome
        have hgt : 1 < (electivesWithKey cs (electiveKey c)).length := of_decide_eq_true hsome.symm
        simp [basketFix, hel, hl, hgt]
  · intro c hc d hd helc held hk
    simp only [basketFix, helc, held, if_true]
    rw [hk]
    cases hl : lookupId (basketAssignment cs) (electiveKey d)
    · simp [hb c hc, hb d hd]
    · simp

/-- A first elective course. -/
def elecA : Course :=
  { course_id := "COURSE_4", course_code := "EL1", course_title := "Elective 1",
    semester := 5, semester_half := "Sem-I", branch := "CSE", course_section := none,
    lectures := 1, tutorials := 0, practicals := 0, faculty_name := "F4",
    is_elective := true, basket := none, num_students := 60 }

/-- A second elective course sharing `elecA`'s key. -/
def elecB : Course :=
  { course_id := "COURSE_5", course_code := "EL2", course_title := "Elective 2",
    semester := 5, semester_half := "Sem-I", branch := "CSE", course_section := none,
    lectures := 1, tutorials := 0, practicals := 0, faculty_name := "F5",
    is_elective := true, basket := none, num_students := 60 }

/-- Witness for C8 at a concrete input: `elecA` gets a basket because `elecB`
shares its key. -/
theorem basket_assignment_spec_witness :
    (basketFix (basketAssignment [elecA, elecB]) elecA).basket ≠ none ↔
      (elecA.is_elective = true ∧
        1 < (electivesWithKey [elecA, elecB] (electiveKey elecA)).length) :=
  (basket_assignment_spec [elecA, elecB] (by decide)).2.2.1 elecA (by decide)

/-! ### Frame condition (C10) -/

theorem suitable_rooms_mem (rs : List Room) (c : Course) (ty : SessionType) :
    ∀ r ∈ _get_suitable_rooms (mkCfg rs) c ty, r ∈ rs := by
  intro r hr
  unfold _get_suitable_rooms at hr
  split at hr
  · have h1 := (List.mem_filter.1 hr).1
    simp only [mkCfg] at h1
    exact (List.mem_filter.1 h1).1
  · have h1 := (List.mem_filter.1 hr).1
    rcases List.mem_append.1 h1 with h2 | h2
    · simp only [mkCfg] at h2
      rw [mem_sortRoomsDesc] at h2
      exact (List.mem_filter.1 h2).1
    · simp only [mkCfg] at h2
      rw [mem_sortRoomsDesc] at h2
      exact (List.mem_filter.1 h2).1

/-- C10: over a whole run, the only course field the core changes is `basket`,
set once by basket detection before any placement (`applyBaskets` is the entire
effect on courses, and it is the identity on every other field); rooms are
never changed — every scheduled session references an input room value and a
basket-updated input course. -/
theorem frame_condition (cs : List Course) (rs : List Room) :
    ((applyBaskets cs).length = cs.length) ∧
    (∀ c ∈ cs, stripBasket (basketFix (basketAssignment cs) c) = stripBasket c) ∧
    (applyBaskets cs = cs.map (basketFix (basketAssignment cs))) ∧
    (∀ s ∈ (runScheduler cs rs).schedule,
      s.course ∈ applyBaskets cs ∧ s.room ∈ rs) := by
  refine ⟨by simp [applyBaskets], fun c _ => basketFix_strip _ c, rfl, ?_⟩
  unfold runScheduler
  refine runFold_preserve (fun r => r ∈ rs)
    (fun st => ∀ s ∈ st.schedule, s.course ∈ applyBaskets cs ∧ s.room ∈ rs)
    (mkCfg rs) (sortCourses (applyBaskets cs)) initState ?_ ?_ ?_
  · intro c hc
    have hc2 : c ∈ applyBaskets cs := (sortCourses_perm (applyBaskets cs)).mem_iff.1 hc
    refine ⟨fun st r h => h, fun st l h => h, ?_⟩
    intro st ty num slot rm hrm h hok s hs
    simp only [commitSession, List.mem_append, List.mem_singleton] at hs
    rcases hs with hs | rfl
    · exact h s hs
    · exact ⟨by simpa [mkSession] using hc2, by simpa [mkSession] using hrm⟩
  · intro c _ ty
    exact suitable_rooms_mem rs c ty
  · intro s hs
    simp [initState] at hs

/-- Witness for C10 at a concrete input. -/
theorem frame_condition_witness :
    stripBasket (basketFix (basketAssignment [elecA, elecB]) elecA) = stripBasket elecA :=
  (frame_condition [elecA, elecB] []).2.1 elecA (by decide)

end Timetable
